import Mathlib

/-!
Verification development for the Event-Management-system booking core.

The definitions below are a shallow embedding of the seat-inventory booking
transaction implemented in
`src/Event-Management-backend/src/controllers/bookingController.ts`
(`createBooking`, `cancelBooking`, `getUserBookings`, `getAllBookings`)
together with the Joi request schema in
`src/Event-Management-backend/src/middleware/validation.ts` (`bookingSchema`).

Modelling conventions:
* Mongo ObjectIds are modelled as natural numbers; fresh booking ids come from
  a `nextId` counter carried in the database state (Mongo generates a fresh
  unique `_id` for every inserted document).
* Dates/instants are integers (milliseconds since the epoch, as in JS
  `Date.getTime()`).
* Prices and seat counts are natural numbers (the Joi schemas only admit
  non-negative prices and positive seat counts).
* Each controller call runs inside a single Mongo session transaction
  (`session.startTransaction()` ... `commitTransaction`/`abortTransaction`);
  writes performed with `.session(session)` become visible only at commit and
  are discarded on abort.  The sequential model therefore treats a whole call
  as one atomic transition, and a dedicated fine-grained model
  (`ConcState`/`concStep` below) covers interleavings of concurrent calls.
-/

namespace EventBooking

/-- Booking status enum from `src/models/Booking.ts`
(`"confirmed" | "cancelled" | "pending"`). -/
inductive BookingStatus
  | confirmed
  | cancelled
  | pending
deriving DecidableEq, Repr

/-- Modelled from the spec: `src/models/Event.ts` is not among the provided
source files; the Event record is taken from spec section 3 (DATA MODEL) and
from the fields the booking controller reads (`date`, `price`,
`availableSeats`).  Fields irrelevant to the booking core (title, venue, ...)
are omitted. -/
structure Event where
  id : Nat
  date : Int
  price : Nat
  totalSeats : Nat
  availableSeats : Nat
deriving DecidableEq, Repr

/-- Booking record from `src/models/Booking.ts` (fields used by the booking
controller). -/
structure Booking where
  id : Nat
  user : Nat
  event : Nat
  seatsBooked : Nat
  totalAmount : Nat
  status : BookingStatus
deriving DecidableEq, Repr

/-- The persistent state: the Event collection and the Booking collection,
plus the id counter standing in for Mongo's fresh `_id` generation. -/
structure DB where
  events : List Event
  bookings : List Booking
  nextId : Nat
deriving DecidableEq, Repr

/-- `Event.findById(eventId)`. -/
def findEvent (db : DB) (eid : Nat) : Option Event :=
  db.events.find? (fun e => e.id == eid)

/-- The document filter `{ user: userId, event: eventId, status: "confirmed" }`. -/
def isConfOf (uid eid : Nat) (b : Booking) : Bool :=
  b.user == uid && b.event == eid && b.status == BookingStatus.confirmed

/-- `Booking.findOne({ user: userId, event: eventId, status: "confirmed" })`. -/
def findConfirmed (db : DB) (uid eid : Nat) : Option Booking :=
  db.bookings.find? (isConfOf uid eid)

/-- The document filter `{ _id: id, user: userId }`. -/
def isOwned (bid uid : Nat) (b : Booking) : Bool :=
  b.id == bid && b.user == uid

/-- `Booking.findOne({ _id: id, user: userId })`. -/
def findOwnedBooking (db : DB) (bid uid : Nat) : Option Booking :=
  db.bookings.find? (isOwned bid uid)

/-- Saving a modified event document: every event document with the given id
is replaced by its update (ids are unique in any well-formed state). -/
def updateEvent (db : DB) (eid : Nat) (f : Event → Event) : DB :=
  { db with events := db.events.map (fun e => if e.id = eid then f e else e) }

/-- `booking.status = "cancelled"; await booking.save({ session })`. -/
def cancelIf (bid : Nat) (b : Booking) : Booking :=
  if b.id = bid then { b with status := BookingStatus.cancelled } else b

def setBookingCancelled (db : DB) (bid : Nat) : DB :=
  { db with bookings := db.bookings.map (cancelIf bid) }

/-- Error outcomes of `createBooking`, mirroring the controller's error
responses in order:  404 event not found; 400 past event; 400 duplicate
booking; 400 insufficient seats (the message interpolates the actual
`availableSeats`); 500 internal error from the catch-all handler. -/
inductive CreateErr
  | eventNotFound
  | pastEvent
  | duplicateBooking
  | insufficientSeats (remaining : Nat)
  | internal
deriving DecidableEq, Repr

/-- Error outcomes of `cancelBooking`, in the controller's order. -/
inductive CancelErr
  | bookingNotFound
  | alreadyCancelled
  | eventNotFound
  | tooCloseToEvent
  | internal
deriving DecidableEq, Repr

/-- A point at which an unexpected persistence fault may be injected inside
the session transaction.  All the controller's writes go through the session,
so a fault at any of these points reaches the catch-all handler, which calls
`session.abortTransaction()` and discards the buffered writes. -/
inductive Fault
  | noFault
  | beforeFirstSave
  | betweenSaves
  | beforeCommit
deriving DecidableEq, Repr

/-- Result of a call: the (post-commit or post-abort) database plus the
outcome returned to the API layer. -/
structure CreateResult where
  db : DB
  outcome : Except CreateErr Booking
deriving Repr

structure CancelResult where
  db : DB
  outcome : Except CancelErr Booking
deriving Repr

/-- The booking document built by `new Booking({...})` in `createBooking`:
`totalAmount = event.price * seatsBooked`, `status: "confirmed"`. -/
def newBooking (db : DB) (uid eid seats : Nat) (ev : Event) : Booking :=
  { id := db.nextId, user := uid, event := eid, seatsBooked := seats,
    totalAmount := ev.price * seats, status := BookingStatus.confirmed }

/-- The committed state of a successful `createBooking`: the booking is
inserted (`booking.save({ session })`) and the event's seats are decremented
(`event.availableSeats -= seatsBooked; event.save({ session })`). -/
def commitCreate (db : DB) (uid eid seats : Nat) (ev : Event) : DB :=
  updateEvent
    { db with bookings := db.bookings ++ [newBooking db uid eid seats ev],
              nextId := db.nextId + 1 }
    eid (fun e => { e with availableSeats := e.availableSeats - seats })

/-- `createBooking` from `bookingController.ts`, with an optional injected
fault.  Every error path calls `session.abortTransaction()`, so it returns
the input database unchanged. -/
def createBookingRun (db : DB) (now : Int) (uid eid seats : Nat)
    (fault : Fault) : CreateResult :=
  match findEvent db eid with
  | none => ⟨db, Except.error CreateErr.eventNotFound⟩
  | some ev =>
    if ev.date < now then
      ⟨db, Except.error CreateErr.pastEvent⟩
    else if (findConfirmed db uid eid).isSome then
      ⟨db, Except.error CreateErr.duplicateBooking⟩
    else if ev.availableSeats < seats then
      ⟨db, Except.error (CreateErr.insufficientSeats ev.availableSeats)⟩
    else if fault = Fault.beforeFirstSave then
      ⟨db, Except.error CreateErr.internal⟩
    else if fault = Fault.betweenSaves then
      ⟨db, Except.error CreateErr.internal⟩
    else if fault = Fault.beforeCommit then
      ⟨db, Except.error CreateErr.internal⟩
    else
      ⟨commitCreate db uid eid seats ev, Except.ok (newBooking db uid eid seats ev)⟩

/-- `createBooking` without injected faults. -/
def createBooking (db : DB) (now : Int) (uid eid seats : Nat) : CreateResult :=
  createBookingRun db now uid eid seats Fault.noFault

/-- The 24-hour cancellation cutoff in milliseconds.  The controller computes
`hoursDifference = (eventDate.getTime() - now.getTime()) / (1000 * 60 * 60)`
with real division and tests `hoursDifference < 24`; over the integers this is
exactly `eventDate - now < 24 * 60 * 60 * 1000`. -/
def cutoffMs : Int := 24 * 60 * 60 * 1000

/-- The committed state of a successful `cancelBooking`: the booking's status
is set to `"cancelled"` and the event's seats are restored by the stored
`booking.seatsBooked`. -/
def commitCancel (db : DB) (b : Booking) : DB :=
  updateEvent (setBookingCancelled db b.id) b.event
    (fun e => { e with availableSeats := e.availableSeats + b.seatsBooked })

/-- `cancelBooking` from `bookingController.ts`, with an optional injected
fault. -/
def cancelBookingRun (db : DB) (now : Int) (uid bid : Nat)
    (fault : Fault) : CancelResult :=
  match findOwnedBooking db bid uid with
  | none => ⟨db, Except.error CancelErr.bookingNotFound⟩
  | some b =>
    if b.status = BookingStatus.cancelled then
      ⟨db, Except.error CancelErr.alreadyCancelled⟩
    else
      match findEvent db b.event with
      | none => ⟨db, Except.error CancelErr.eventNotFound⟩
      | some ev =>
        if ev.date - now < cutoffMs then
          ⟨db, Except.error CancelErr.tooCloseToEvent⟩
        else if fault = Fault.beforeFirstSave then
          ⟨db, Except.error CancelErr.internal⟩
        else if fault = Fault.betweenSaves then
          ⟨db, Except.error CancelErr.internal⟩
        else if fault = Fault.beforeCommit then
          ⟨db, Except.error CancelErr.internal⟩
        else
          ⟨commitCancel db b, Except.ok { b with status := BookingStatus.cancelled }⟩

/-- `cancelBooking` without injected faults. -/
def cancelBooking (db : DB) (now : Int) (uid bid : Nat) : CancelResult :=
  cancelBookingRun db now uid bid Fault.noFault

/-! ### Request validation (`middleware/validation.ts`) -/

/-- The seats constraint of `bookingSchema` in `middleware/validation.ts`:
`seatsBooked: Joi.number().min(1).max(10).required()`.  The requested seat
count arrives as a JSON number; it is modelled as an integer. -/
def bookingSchemaSeatsOk (seats : Int) : Bool :=
  1 ≤ seats && seats ≤ 10

/-- API-level outcome of the create route: either the Joi validation
middleware rejects the request (HTTP 400 before the controller runs), or the
controller's outcome is returned. -/
inductive ApiCreateErr
  | invalidRequest
  | fromController (e : CreateErr)
deriving DecidableEq, Repr

structure ApiCreateResult where
  db : DB
  outcome : Except ApiCreateErr Booking
deriving Repr

/-- Modelled from the spec: the route file wiring `validateBooking` in front
of `createBooking` for the booking-create endpoint is not among the provided
source files (only `routes/auth.ts` is); spec sections 2 and 4.1 state that
the API layer forwards only validated commands and that out-of-bounds seat
counts are rejected as InvalidRequest with no state change.  The validation
predicate itself (`bookingSchemaSeatsOk`) is translated from
`middleware/validation.ts`, which is in the sources. -/
def handleCreateBooking (db : DB) (now : Int) (uid eid : Nat) (seats : Int) :
    ApiCreateResult :=
  if bookingSchemaSeatsOk seats then
    let r := createBooking db now uid eid seats.toNat
    ⟨r.db, r.outcome.mapError ApiCreateErr.fromController⟩
  else
    ⟨db, Except.error ApiCreateErr.invalidRequest⟩

/-! ### Booking query service (`getUserBookings`, `getAllBookings`) -/

/-- Pagination metadata object returned by the list endpoints. -/
structure Pagination where
  page : Int
  limit : Int
  total : Nat
  pages : Nat
deriving DecidableEq, Repr

structure PageResult where
  bookings : List Booking
  pagination : Pagination
deriving DecidableEq, Repr

/-- `Math.max(1, Number(page))`. -/
def clampPage (page : Int) : Int := max 1 page

/-- `Math.max(1, Math.min(50, Number(limit)))`. -/
def clampLimit (limit : Int) : Int := max 1 (min 50 limit)

/-- The shared pagination tail of the list endpoints:
`skip = (pageNum - 1) * limitNum`, `.skip(skip).limit(limitNum)`,
`total = countDocuments(query)`, `pages = Math.ceil(total / limitNum)`.
`limitNum ≥ 1` is an integer, so JS `Math.ceil(total / limitNum)` equals
integer `(total + limitNum - 1) / limitNum`.  Result ordering
(`.sort({ createdAt: -1 })`) is abstracted: the model pages through the
stored order. -/
def pagedQuery (l : List Booking) (page limit : Int) : PageResult :=
  let pageNum := clampPage page
  let limitNum := clampLimit limit
  let skip := ((pageNum - 1) * limitNum).toNat
  let total := l.length
  { bookings := (l.drop skip).take limitNum.toNat,
    pagination :=
      { page := pageNum, limit := limitNum, total := total,
        pages := (total + limitNum.toNat - 1) / limitNum.toNat } }

/-- Filter of `getUserBookings`: `{ user: userId }` plus
`if (status) query.status = status`. -/
def userBookingsFilter (uid : Nat) (statusFilter : Option BookingStatus)
    (b : Booking) : Bool :=
  b.user == uid &&
    (match statusFilter with
     | none => true
     | some st => b.status == st)

/-- `getUserBookings` from `bookingController.ts`. -/
def getUserBookings (db : DB) (uid : Nat) (statusFilter : Option BookingStatus)
    (page limit : Int) : PageResult :=
  pagedQuery (db.bookings.filter (userBookingsFilter uid statusFilter)) page limit

/-- Filter of `getAllBookings`: optional `status`, `event`, `user` filters. -/
def allBookingsFilter (statusFilter : Option BookingStatus)
    (eventFilter userFilter : Option Nat) (b : Booking) : Bool :=
  (match statusFilter with
   | none => true
   | some st => b.status == st) &&
  (match eventFilter with
   | none => true
   | some eid => b.event == eid) &&
  (match userFilter with
   | none => true
   | some uid => b.user == uid)

/-- `getAllBookings` from `bookingController.ts`. -/
def getAllBookings (db : DB) (statusFilter : Option BookingStatus)
    (eventFilter userFilter : Option Nat) (page limit : Int) : PageResult :=
  pagedQuery (db.bookings.filter (allBookingsFilter statusFilter eventFilter userFilter))
    page limit

/-! ### Sequences of booking operations

Each controller call runs inside one Mongo session transaction, so a
completed call is one atomic transition on the database; a sequence of calls
is a fold.  (Interleavings at sub-transaction granularity are treated by the
concurrency model further below.) -/

inductive Op
  | create (now : Int) (uid eid seats : Nat)
  | cancel (now : Int) (uid bid : Nat)
deriving DecidableEq, Repr

def applyOp (db : DB) (op : Op) : DB :=
  match op with
  | Op.create now uid eid seats => (createBooking db now uid eid seats).db
  | Op.cancel now uid bid => (cancelBooking db now uid bid).db

def applyOps (db : DB) (ops : List Op) : DB :=
  ops.foldl applyOp db

/-! ### State observations and well-formedness -/

/-- The `availableSeats` counter of the event with the given id (0 when
absent). -/
def availSeats (db : DB) (eid : Nat) : Nat :=
  match findEvent db eid with
  | some e => e.availableSeats
  | none => 0

/-- Predicate: a booking belongs to this event and is confirmed. -/
def isConfFor (eid : Nat) (b : Booking) : Bool :=
  b.event == eid && b.status == BookingStatus.confirmed

/-- Sum of `seatsBooked` over the event's confirmed bookings. -/
def confirmedSeats (db : DB) (eid : Nat) : Nat :=
  ((db.bookings.filter (isConfFor eid)).map Booking.seatsBooked).sum

/-- Number of confirmed bookings held by a (user, event) pair. -/
def countConfirmed (db : DB) (uid eid : Nat) : Nat :=
  (db.bookings.filter (isConfOf uid eid)).length

/-- Well-formedness of a database state: document ids are unique (Mongo
`_id`s), booking ids stay below the freshness counter, and no booking is in
the `pending` state (no code path ever produces one; bookings are created
directly as `confirmed`). -/
def Inv (db : DB) : Prop :=
  (db.events.map Event.id).Nodup ∧
  (db.bookings.map Booking.id).Nodup ∧
  (∀ b ∈ db.bookings, b.id < db.nextId) ∧
  (∀ b ∈ db.bookings, b.status ≠ BookingStatus.pending)

/-- At most one confirmed booking per (user, event) pair. -/
def AtMostOne (db : DB) : Prop :=
  ∀ uid eid, countConfirmed db uid eid ≤ 1

/-! ### Concurrency model of createBooking transactions on one event

Fine-grained model of N concurrent `createBooking` calls against a single
event, at the granularity of the Mongo session transaction:

* `start i` — call `i` begins its transaction: it reads the event at the
  session snapshot, recording the snapshot's `availableSeats` and the event
  document's version, and performs the controller's in-transaction
  validation (`event.availableSeats < seatsBooked` aborts immediately).
* `commit i` — call `i` reaches `commitTransaction`.  Mongo aborts a
  transaction whose written document was modified by a concurrently
  committed transaction (write conflict): the commit succeeds only if the
  event document's version is still the one the snapshot saw; then the
  buffered decrement (computed from the snapshot value) is published and the
  version advances.  Otherwise the call fails with no effect.

A schedule is an arbitrary list of such actions, so calls may interleave in
any order, start without ever committing (modelling failures for any other
reason), or be ignored entirely.  Actions that do not match the call's
current phase are no-ops. -/

inductive CallPhase
  | idle
  | active (snapAvail : Nat) (snapVersion : Nat)
  | done (success : Bool)
deriving DecidableEq, Repr

structure ConcState where
  avail : Nat
  version : Nat
  calls : List (Nat × CallPhase)
deriving Repr

inductive ConcEv
  | start (i : Nat)
  | commit (i : Nat)
deriving DecidableEq, Repr

def concStep (s : ConcState) (e : ConcEv) : ConcState :=
  match e with
  | ConcEv.start i =>
    match s.calls[i]? with
    | some (seats, CallPhase.idle) =>
      if s.avail < seats then
        { s with calls := s.calls.set i (seats, CallPhase.done false) }
      else
        { s with calls := s.calls.set i (seats, CallPhase.active s.avail s.version) }
    | _ => s
  | ConcEv.commit i =>
    match s.calls[i]? with
    | some (seats, CallPhase.active sa sv) =>
      if sv = s.version then
        { avail := sa - seats, version := s.version + 1,
          calls := s.calls.set i (seats, CallPhase.done true) }
      else
        { s with calls := s.calls.set i (seats, CallPhase.done false) }
    | _ => s

def concRun (s : ConcState) (es : List ConcEv) : ConcState :=
  es.foldl concStep s

/-- Initial state: the event has capacity `cap` seats available and every
call is yet to start; `seatsList` lists each call's requested seat count. -/
def initConc (cap : Nat) (seatsList : List Nat) : ConcState :=
  { avail := cap, version := 0,
    calls := seatsList.map (fun s => (s, CallPhase.idle)) }

/-- Seats contributed by one call: its request if it returned success, else 0. -/
def callSeats (c : Nat × CallPhase) : Nat :=
  match c.2 with
  | CallPhase.done true => c.1
  | _ => 0

/-- Total seats over the calls that returned success. -/
def successSeats (s : ConcState) : Nat :=
  (s.calls.map callSeats).sum

/-- Invariant of the concurrent execution: seats are conserved between the
available counter and the successful calls, and every transaction snapshot
taken at the current document version is accurate (its recorded
`availableSeats` is the live value) and passed the capacity guard. -/
def ConcInv (C : Nat) (s : ConcState) : Prop :=
  s.avail + successSeats s = C ∧
  ∀ (i seats sa sv : Nat), s.calls[i]? = some (seats, CallPhase.active sa sv) →
    seats ≤ sa ∧ sv ≤ s.version ∧ (sv = s.version → sa = s.avail)

/-! ### Error taxonomy mapping (spec section 7)

The spec's `InvalidState` kind covers both business-rule violations of
cancellation: cancelling an already-cancelled booking and cancelling inside
the cutoff window. -/

/-- Which cancel errors the spec's error taxonomy files under `InvalidState`. -/
def cancelErrIsInvalidState : CancelErr → Bool
  | CancelErr.alreadyCancelled => true
  | CancelErr.tooCloseToEvent => true
  | _ => false

/-! ### Concrete fixtures used by witnesses and counterexamples -/

/-- The spec's end-to-end scenario event: `totalSeats = 10`,
`availableSeats = 10`, price 5000; dated 10 days (864000000 ms) after
instant 0. -/
def evA : Event :=
  { id := 1, date := 864000000, price := 5000, totalSeats := 10, availableSeats := 10 }

def dbA : DB := { events := [evA], bookings := [], nextId := 0 }

/-- An event with only 2 seats left. -/
def evB : Event :=
  { id := 2, date := 864000000, price := 100, totalSeats := 10, availableSeats := 2 }

def dbB : DB := { events := [evB], bookings := [], nextId := 0 }

/-- An event whose date (instant 0) has already passed at instant 1. -/
def evP : Event :=
  { id := 3, date := 0, price := 100, totalSeats := 10, availableSeats := 5 }

/-- A confirmed booking of user 7 on the past event `evP`. -/
def bP : Booking :=
  { id := 0, user := 7, event := 3, seatsBooked := 2, totalAmount := 200,
    status := BookingStatus.confirmed }

def dbP : DB := { events := [evP], bookings := [bP], nextId := 1 }

/-! ## Helper lemmas -/

lemma find?_map_pres {α : Type} (l : List α) (f : α → α) (p : α → Bool)
    (hp : ∀ x, p (f x) = p x) :
    (l.map f).find? p = (l.find? p).map f := by
  rw [List.find?_map]
  have h : p ∘ f = p := funext hp
  rw [h]

lemma length_filter_map_le {α : Type} (l : List α) (f : α → α) (p : α → Bool)
    (h : ∀ x, p (f x) = true → p x = true) :
    ((l.map f).filter p).length ≤ (l.filter p).length := by
  induction l with
  | nil => simp
  | cons x xs ih =>
    simp only [List.map_cons, List.filter_cons]
    by_cases hx : p (f x) = true
    · rw [if_pos hx, if_pos (h x hx)]
      simpa using ih
    · rw [if_neg hx]
      by_cases hx2 : p x = true
      · rw [if_pos hx2]
        exact Nat.le_succ_of_le ih
      · rw [if_neg hx2]
        exact ih

/-- `cancelIf` touches only the status field. -/
lemma cancelIf_id (bid : Nat) (b : Booking) : (cancelIf bid b).id = b.id := by
  unfold cancelIf; split <;> rfl

lemma cancelIf_user (bid : Nat) (b : Booking) : (cancelIf bid b).user = b.user := by
  unfold cancelIf; split <;> rfl

lemma cancelIf_event (bid : Nat) (b : Booking) : (cancelIf bid b).event = b.event := by
  unfold cancelIf; split <;> rfl

lemma cancelIf_seats (bid : Nat) (b : Booking) :
    (cancelIf bid b).seatsBooked = b.seatsBooked := by
  unfold cancelIf; split <;> rfl

/-- Decoding a successful event lookup. -/
lemma findEvent_id (db : DB) (eid : Nat) (ev : Event)
    (h : findEvent db eid = some ev) : ev.id = eid := by
  unfold findEvent at h
  have := List.find?_some h
  simpa using this

lemma findEvent_mem (db : DB) (eid : Nat) (ev : Event)
    (h : findEvent db eid = some ev) : ev ∈ db.events :=
  List.mem_of_find?_eq_some h

/-- Decoding a successful owned-booking lookup. -/
lemma findOwnedBooking_spec (db : DB) (bid uid : Nat) (b : Booking)
    (h : findOwnedBooking db bid uid = some b) :
    b ∈ db.bookings ∧ b.id = bid ∧ b.user = uid := by
  unfold findOwnedBooking at h
  refine ⟨List.mem_of_find?_eq_some h, ?_⟩
  have := List.find?_some h
  unfold isOwned at this
  simp at this
  exact this

/-- An empty duplicate lookup means no confirmed booking of the pair exists. -/
lemma findConfirmed_none (db : DB) (uid eid : Nat)
    (h : findConfirmed db uid eid = none) :
    ∀ b ∈ db.bookings, isConfOf uid eid b = false := by
  unfold findConfirmed at h
  intro b hb
  have := List.find?_eq_none.mp h b hb
  simpa using this

/-- Event lookup after an id-preserving event update. -/
lemma findEvent_updateEvent (db : DB) (eid eid' : Nat) (f : Event → Event)
    (hf : ∀ e, (f e).id = e.id) :
    findEvent (updateEvent db eid f) eid' =
      (findEvent db eid').map (fun e => if e.id = eid then f e else e) := by
  unfold findEvent updateEvent
  exact find?_map_pres _ _ _ (fun e => by
    by_cases h : e.id = eid <;> simp [h, hf])

lemma availSeats_updateEvent_self (db : DB) (eid : Nat) (f : Event → Event)
    (hf : ∀ e, (f e).id = e.id) (ev : Event) (h : findEvent db eid = some ev) :
    availSeats (updateEvent db eid f) eid = (f ev).availableSeats := by
  unfold availSeats
  rw [findEvent_updateEvent db eid eid f hf, h]
  simp [findEvent_id db eid ev h]

lemma availSeats_updateEvent_ne (db : DB) (eid eid' : Nat) (f : Event → Event)
    (hf : ∀ e, (f e).id = e.id) (h : eid' ≠ eid) :
    availSeats (updateEvent db eid f) eid' = availSeats db eid' := by
  unfold availSeats
  rw [findEvent_updateEvent db eid eid' f hf]
  cases hfe : findEvent db eid' with
  | none => simp
  | some e =>
    have hid : e.id = eid' := findEvent_id db eid' e hfe
    simp [hid, h]

/-- Updating events does not touch the booking collection. -/
lemma bookings_updateEvent (db : DB) (eid : Nat) (f : Event → Event) :
    (updateEvent db eid f).bookings = db.bookings := rfl

/-- Updating bookings does not touch the event collection. -/
lemma availSeats_setBookingCancelled (db : DB) (bid eid : Nat) :
    availSeats (setBookingCancelled db bid) eid = availSeats db eid := rfl

lemma findEvent_setBookingCancelled (db : DB) (bid eid : Nat) :
    findEvent (setBookingCancelled db bid) eid = findEvent db eid := rfl

/-- Appending one booking adds its seats to `confirmedSeats` exactly when it
is a confirmed booking of the event. -/
lemma confirmedSeats_append (db : DB) (b : Booking) (n : Nat) (eid : Nat) :
    confirmedSeats { db with bookings := db.bookings ++ [b], nextId := n } eid =
      confirmedSeats db eid + (if isConfFor eid b then b.seatsBooked else 0) := by
  unfold confirmedSeats
  by_cases h : isConfFor eid b <;> simp [List.filter_append, h]

lemma confirmedSeats_updateEvent (db : DB) (eid' : Nat) (f : Event → Event)
    (eid : Nat) :
    confirmedSeats (updateEvent db eid' f) eid = confirmedSeats db eid := rfl

lemma countConfirmed_append (db : DB) (b : Booking) (n : Nat) (uid eid : Nat) :
    countConfirmed { db with bookings := db.bookings ++ [b], nextId := n } uid eid =
      countConfirmed db uid eid + (if isConfOf uid eid b then 1 else 0) := by
  unfold countConfirmed
  by_cases h : isConfOf uid eid b <;> simp [List.filter_append, h]

lemma countConfirmed_updateEvent (db : DB) (eid' : Nat) (f : Event → Event)
    (uid eid : Nat) :
    countConfirmed (updateEvent db eid' f) uid eid = countConfirmed db uid eid := rfl

/-- Cancelling a booking whose event is not this one leaves this event's
confirmed-booking list untouched. -/
lemma filter_isConfFor_map_cancelIf_ne (l : List Booking) (bid eid : Nat)
    (h : ∀ x ∈ l, x.id = bid → x.event ≠ eid) :
    (l.map (cancelIf bid)).filter (isConfFor eid) = l.filter (isConfFor eid) := by
  induction l with
  | nil => simp
  | cons x xs ih =>
    have hxs : ∀ y ∈ xs, y.id = bid → y.event ≠ eid :=
      fun y hy => h y (List.mem_cons_of_mem x hy)
    by_cases hid : x.id = bid
    · have hev : x.event ≠ eid := h x (List.mem_cons_self x xs) hid
      have h1 : isConfFor eid x = false := by
        unfold isConfFor
        simp [hev]
      have h2 : isConfFor eid (cancelIf bid x) = false := by
        unfold isConfFor
        simp [cancelIf_event, hev]
      simp only [List.map_cons, List.filter_cons, h1, h2]
      simpa using ih hxs
    · have hx : cancelIf bid x = x := by unfold cancelIf; simp [hid]
      simp only [List.map_cons, List.filter_cons, hx]
      by_cases hp : isConfFor eid x <;> simp [hp, ih hxs]

/-- Cancelling a confirmed booking of this event removes exactly its seats
from `confirmedSeats` (stated additively). -/
lemma seatsum_map_cancelIf_hit (l : List Booking) (b0 : Booking) (eid : Nat)
    (hnd : (l.map Booking.id).Nodup) (hmem : b0 ∈ l)
    (hst : b0.status = BookingStatus.confirmed) (hev : b0.event = eid) :
    (((l.map (cancelIf b0.id)).filter (isConfFor eid)).map Booking.seatsBooked).sum
        + b0.seatsBooked
      = ((l.filter (isConfFor eid)).map Booking.seatsBooked).sum := by
  induction l with
  | nil => simp at hmem
  | cons x xs ih =>
    rw [List.map_cons] at hnd
    have hnotin : x.id ∉ xs.map Booking.id := (List.nodup_cons.mp hnd).1
    have hnd' : (xs.map Booking.id).Nodup := (List.nodup_cons.mp hnd).2
    rcases List.mem_cons.mp hmem with hhd | hmemxs
    · -- the head is the cancelled booking
      subst hhd
      have hmapxs : xs.map (cancelIf b0.id) = xs := by
        have hpt : ∀ y ∈ xs, cancelIf b0.id y = y := by
          intro y hy
          have hy' : y.id ≠ b0.id := by
            intro hEq
            exact hnotin (hEq ▸ List.mem_map_of_mem Booking.id hy)
          unfold cancelIf
          simp [hy']
        calc xs.map (cancelIf b0.id) = xs.map id := List.map_congr_left hpt
        _ = xs := List.map_id xs
      have h1 : isConfFor eid (cancelIf b0.id b0) = false := by
        unfold cancelIf isConfFor
        simp
      have h2 : isConfFor eid b0 = true := by
        unfold isConfFor
        simp [hev, hst]
      simp only [List.map_cons, List.filter_cons, h1, h2, hmapxs]
      simp [Nat.add_comm]
    · -- the cancelled booking is in the tail
      have hxid : x.id ≠ b0.id := by
        intro hEq
        exact hnotin (hEq ▸ List.mem_map_of_mem Booking.id hmemxs)
      have hx : cancelIf b0.id x = x := by unfold cancelIf; simp [hxid]
      simp only [List.map_cons, List.filter_cons, hx]
      by_cases hp : isConfFor eid x
      · simp only [hp, if_pos]
        simp only [List.map_cons, List.sum_cons]
        rw [Nat.add_assoc, ih hnd' hmemxs]
      · simp only [hp]
        simpa using ih hnd' hmemxs

/-- Cancelling can only shrink the number of confirmed bookings of any
(user, event) pair. -/
lemma countConfirmed_setBookingCancelled_le (db : DB) (bid uid eid : Nat) :
    countConfirmed (setBookingCancelled db bid) uid eid ≤ countConfirmed db uid eid := by
  unfold countConfirmed setBookingCancelled
  apply length_filter_map_le
  intro x hx
  unfold cancelIf at hx
  by_cases h : x.id = bid
  · rw [if_pos h] at hx
    unfold isConfOf at hx
    simp at hx
  · rwa [if_neg h] at hx

/-! ## Characterization of the two transactions -/

/-- Every run of `createBooking` either aborts (leaving the database exactly
as it was) or commits the canonical success effect, and a commit is only
possible without an injected fault. -/
lemma createBookingRun_spec (db : DB) (now : Int) (uid eid seats : Nat)
    (fault : Fault) :
    ((∃ e, (createBookingRun db now uid eid seats fault).outcome = Except.error e) ∧
      (createBookingRun db now uid eid seats fault).db = db) ∨
    (fault = Fault.noFault ∧
     ∃ ev, findEvent db eid = some ev ∧ ¬(ev.date < now) ∧
       findConfirmed db uid eid = none ∧ seats ≤ ev.availableSeats ∧
       (createBookingRun db now uid eid seats fault).outcome =
         Except.ok (newBooking db uid eid seats ev) ∧
       (createBookingRun db now uid eid seats fault).db =
         commitCreate db uid eid seats ev) := by
  unfold createBookingRun
  cases hev : findEvent db eid with
  | none => exact Or.inl ⟨⟨_, rfl⟩, rfl⟩
  | some ev =>
    dsimp only
    split_ifs with h1 h2 h3 hf1 hf2 hf3
    · exact Or.inl ⟨⟨_, rfl⟩, rfl⟩
    · exact Or.inl ⟨⟨_, rfl⟩, rfl⟩
    · exact Or.inl ⟨⟨_, rfl⟩, rfl⟩
    · exact Or.inl ⟨⟨_, rfl⟩, rfl⟩
    · exact Or.inl ⟨⟨_, rfl⟩, rfl⟩
    · exact Or.inl ⟨⟨_, rfl⟩, rfl⟩
    · refine Or.inr ⟨?_, ev, rfl, h1, ?_, Nat.not_lt.mp h3, rfl, rfl⟩
      · cases fault with
        | noFault => rfl
        | beforeFirstSave => exact absurd rfl hf1
        | betweenSaves => exact absurd rfl hf2
        | beforeCommit => exact absurd rfl hf3
      · exact Option.not_isSome_iff_eq_none.mp h2

/-- Every run of `cancelBooking` either aborts (leaving the database exactly
as it was) or commits the canonical cancellation effect. -/
lemma cancelBookingRun_spec (db : DB) (now : Int) (uid bid : Nat)
    (fault : Fault) :
    ((∃ e, (cancelBookingRun db now uid bid fault).outcome = Except.error e) ∧
      (cancelBookingRun db now uid bid fault).db = db) ∨
    (fault = Fault.noFault ∧
     ∃ b ev, findOwnedBooking db bid uid = some b ∧
       b.status ≠ BookingStatus.cancelled ∧
       findEvent db b.event = some ev ∧ ¬(ev.date - now < cutoffMs) ∧
       (cancelBookingRun db now uid bid fault).outcome =
         Except.ok { b with status := BookingStatus.cancelled } ∧
       (cancelBookingRun db now uid bid fault).db = commitCancel db b) := by
  unfold cancelBookingRun
  cases hb : findOwnedBooking db bid uid with
  | none => exact Or.inl ⟨⟨_, rfl⟩, rfl⟩
  | some b =>
    dsimp only
    by_cases h1 : b.status = BookingStatus.cancelled
    · rw [if_pos h1]
      exact Or.inl ⟨⟨_, rfl⟩, rfl⟩
    · rw [if_neg h1]
      cases hev : findEvent db b.event with
      | none => exact Or.inl ⟨⟨_, rfl⟩, rfl⟩
      | some ev =>
        dsimp only
        by_cases h2 : ev.date - now < cutoffMs
        · rw [if_pos h2]
          exact Or.inl ⟨⟨_, rfl⟩, rfl⟩
        · rw [if_neg h2]
          by_cases hf1 : fault = Fault.beforeFirstSave
          · rw [if_pos hf1]
            exact Or.inl ⟨⟨_, rfl⟩, rfl⟩
          · rw [if_neg hf1]
            by_cases hf2 : fault = Fault.betweenSaves
            · rw [if_pos hf2]
              exact Or.inl ⟨⟨_, rfl⟩, rfl⟩
            · rw [if_neg hf2]
              by_cases hf3 : fault = Fault.beforeCommit
              · rw [if_pos hf3]
                exact Or.inl ⟨⟨_, rfl⟩, rfl⟩
              · rw [if_neg hf3]
                refine Or.inr ⟨?_, b, ev, rfl, h1, hev, h2, rfl, rfl⟩
                cases fault with
                | noFault => rfl
                | beforeFirstSave => exact absurd rfl hf1
                | betweenSaves => exact absurd rfl hf2
                | beforeCommit => exact absurd rfl hf3

/-- Direct evaluation of a successful `createBooking`. -/
lemma createBooking_success_eval (db : DB) (now : Int) (uid eid seats : Nat)
    (ev : Event) (hev : findEvent db eid = some ev) (hdate : ¬(ev.date < now))
    (hdup : findConfirmed db uid eid = none)
    (hcap : ¬(ev.availableSeats < seats)) :
    createBooking db now uid eid seats =
      ⟨commitCreate db uid eid seats ev,
       Except.ok (newBooking db uid eid seats ev)⟩ := by
  unfold createBooking createBookingRun
  rw [hev]
  dsimp only
  rw [if_neg hdate, hdup]
  simp [hcap]

/-- Direct evaluation of `createBooking` hitting the capacity check. -/
lemma createBooking_insufficient_eval (db : DB) (now : Int) (uid eid seats : Nat)
    (ev : Event) (hev : findEvent db eid = some ev) (hdate : ¬(ev.date < now))
    (hdup : findConfirmed db uid eid = none)
    (hcap : ev.availableSeats < seats) :
    createBooking db now uid eid seats =
      ⟨db, Except.error (CreateErr.insufficientSeats ev.availableSeats)⟩ := by
  unfold createBooking createBookingRun
  rw [hev]
  dsimp only
  rw [if_neg hdate, hdup]
  simp [hcap]

/-- Direct evaluation of `createBooking` hitting the duplicate-booking
check. -/
lemma createBooking_duplicate_eval (db : DB) (now : Int) (uid eid seats : Nat)
    (ev : Event) (hev : findEvent db eid = some ev) (hdate : ¬(ev.date < now))
    (hdup : (findConfirmed db uid eid).isSome = true) :
    createBooking db now uid eid seats =
      ⟨db, Except.error CreateErr.duplicateBooking⟩ := by
  unfold createBooking createBookingRun
  rw [hev]
  dsimp only
  rw [if_neg hdate, if_pos hdup]

/-- Direct evaluation of `cancelBooking` on an already-cancelled booking. -/
lemma cancelBooking_alreadyCancelled_eval (db : DB) (now : Int) (uid bid : Nat)
    (b : Booking) (hb : findOwnedBooking db bid uid = some b)
    (hst : b.status = BookingStatus.cancelled) :
    cancelBooking db now uid bid = ⟨db, Except.error CancelErr.alreadyCancelled⟩ := by
  unfold cancelBooking cancelBookingRun
  rw [hb]
  dsimp only
  rw [if_pos hst]

/-- Direct evaluation of `cancelBooking` hitting the 24-hour cutoff. -/
lemma cancelBooking_tooClose_eval (db : DB) (now : Int) (uid bid : Nat)
    (b : Booking) (ev : Event) (hb : findOwnedBooking db bid uid = some b)
    (hst : b.status ≠ BookingStatus.cancelled)
    (hev : findEvent db b.event = some ev) (hcut : ev.date - now < cutoffMs) :
    cancelBooking db now uid bid = ⟨db, Except.error CancelErr.tooCloseToEvent⟩ := by
  unfold cancelBooking cancelBookingRun
  rw [hb]
  dsimp only
  rw [if_neg hst, hev]
  dsimp only
  rw [if_pos hcut]

/-- Direct evaluation of a successful `cancelBooking`. -/
lemma cancelBooking_success_eval (db : DB) (now : Int) (uid bid : Nat)
    (b : Booking) (ev : Event) (hb : findOwnedBooking db bid uid = some b)
    (hst : b.status ≠ BookingStatus.cancelled)
    (hev : findEvent db b.event = some ev) (hcut : ¬(ev.date - now < cutoffMs)) :
    cancelBooking db now uid bid =
      ⟨commitCancel db b, Except.ok { b with status := BookingStatus.cancelled }⟩ := by
  unfold cancelBooking cancelBookingRun
  rw [hb]
  dsimp only
  rw [if_neg hst, hev]
  dsimp only
  rw [if_neg hcut]
  simp

/-! ## Effects of the committed states -/

lemma availSeats_commitCreate_self (db : DB) (uid eid seats : Nat) (ev : Event)
    (hev : findEvent db eid = some ev) :
    availSeats (commitCreate db uid eid seats ev) eid = ev.availableSeats - seats := by
  unfold commitCreate
  exact availSeats_updateEvent_self _ eid
    (fun e => { e with availableSeats := e.availableSeats - seats })
    (fun e => rfl) ev hev

lemma availSeats_commitCreate_ne (db : DB) (uid eid seats : Nat) (ev : Event)
    (eid' : Nat) (h : eid' ≠ eid) :
    availSeats (commitCreate db uid eid seats ev) eid' = availSeats db eid' := by
  unfold commitCreate
  exact availSeats_updateEvent_ne _ eid eid'
    (fun e => { e with availableSeats := e.availableSeats - seats })
    (fun e => rfl) h

lemma confirmedSeats_commitCreate (db : DB) (uid eid seats : Nat) (ev : Event)
    (eid' : Nat) :
    confirmedSeats (commitCreate db uid eid seats ev) eid' =
      confirmedSeats db eid' + (if eid' = eid then seats else 0) := by
  unfold commitCreate
  rw [confirmedSeats_updateEvent, confirmedSeats_append]
  congr 1
  unfold isConfFor newBooking
  by_cases h : eid' = eid
  · subst h
    simp
  · have h' : eid ≠ eid' := fun hEq => h hEq.symm
    simp [h, h']

lemma countConfirmed_commitCreate (db : DB) (uid eid seats : Nat) (ev : Event)
    (uid' eid' : Nat) :
    countConfirmed (commitCreate db uid eid seats ev) uid' eid' =
      countConfirmed db uid' eid' + (if uid' = uid ∧ eid' = eid then 1 else 0) := by
  unfold commitCreate
  rw [countConfirmed_updateEvent, countConfirmed_append]
  congr 1
  unfold isConfOf newBooking
  by_cases h1 : uid' = uid
  · by_cases h2 : eid' = eid
    · subst h1; subst h2
      simp
    · have h2' : eid ≠ eid' := fun hEq => h2 hEq.symm
      simp [h1, h2, h2']
  · have h1' : uid ≠ uid' := fun hEq => h1 hEq.symm
    simp [h1, h1']

lemma availSeats_commitCancel_self (db : DB) (b : Booking) (ev : Event)
    (hev : findEvent db b.event = some ev) :
    availSeats (commitCancel db b) b.event = ev.availableSeats + b.seatsBooked := by
  unfold commitCancel
  exact availSeats_updateEvent_self _ b.event
    (fun e => { e with availableSeats := e.availableSeats + b.seatsBooked })
    (fun e => rfl) ev hev

lemma availSeats_commitCancel_ne (db : DB) (b : Booking) (eid' : Nat)
    (h : eid' ≠ b.event) :
    availSeats (commitCancel db b) eid' = availSeats db eid' := by
  unfold commitCancel
  exact availSeats_updateEvent_ne _ b.event eid'
    (fun e => { e with availableSeats := e.availableSeats + b.seatsBooked })
    (fun e => rfl) h

lemma confirmedSeats_commitCancel_self (db : DB) (b : Booking)
    (hnd : (db.bookings.map Booking.id).Nodup) (hmem : b ∈ db.bookings)
    (hst : b.status = BookingStatus.confirmed) :
    confirmedSeats (commitCancel db b) b.event + b.seatsBooked =
      confirmedSeats db b.event := by
  unfold commitCancel
  rw [confirmedSeats_updateEvent]
  unfold confirmedSeats setBookingCancelled
  exact seatsum_map_cancelIf_hit db.bookings b b.event hnd hmem hst rfl

lemma confirmedSeats_commitCancel_ne (db : DB) (b : Booking) (eid' : Nat)
    (hnd : (db.bookings.map Booking.id).Nodup) (hmem : b ∈ db.bookings)
    (h : b.event ≠ eid') :
    confirmedSeats (commitCancel db b) eid' = confirmedSeats db eid' := by
  have hno : ∀ x ∈ db.bookings, x.id = b.id → x.event ≠ eid' := by
    intro x hx hid
    have hxb : x = b :=
      List.inj_on_of_nodup_map hnd hx hmem (by rw [hid])
    rw [hxb]
    exact h
  unfold commitCancel
  rw [confirmedSeats_updateEvent]
  show (((db.bookings.map (cancelIf b.id)).filter (isConfFor eid')).map
          Booking.seatsBooked).sum
      = ((db.bookings.filter (isConfFor eid')).map Booking.seatsBooked).sum
  rw [filter_isConfFor_map_cancelIf_ne db.bookings b.id eid' hno]

/-! ## Preservation of well-formedness -/

lemma events_map_id_updateEvent (db : DB) (eid : Nat) (f : Event → Event)
    (hf : ∀ e, (f e).id = e.id) :
    (updateEvent db eid f).events.map Event.id = db.events.map Event.id := by
  unfold updateEvent
  rw [List.map_map]
  apply List.map_congr_left
  intro e _
  by_cases h : e.id = eid <;> simp [h, hf]

lemma Inv_updateEvent (db : DB) (eid : Nat) (f : Event → Event)
    (hf : ∀ e, (f e).id = e.id) (h : Inv db) : Inv (updateEvent db eid f) := by
  obtain ⟨h1, h2, h3, h4⟩ := h
  refine ⟨?_, h2, h3, h4⟩
  rw [events_map_id_updateEvent db eid f hf]
  exact h1

lemma Inv_midCreate (db : DB) (uid eid seats : Nat) (ev : Event) (h : Inv db) :
    Inv { db with bookings := db.bookings ++ [newBooking db uid eid seats ev],
                  nextId := db.nextId + 1 } := by
  obtain ⟨h1, h2, h3, h4⟩ := h
  refine ⟨h1, ?_, ?_, ?_⟩
  · show ((db.bookings ++ [newBooking db uid eid seats ev]).map Booking.id).Nodup
    rw [List.map_append]
    rw [List.nodup_append]
    refine ⟨h2, List.nodup_singleton _, ?_⟩
    intro a ha hb
    rcases List.mem_map.mp ha with ⟨x, hx, rfl⟩
    have hlt := h3 x hx
    have : x.id = db.nextId := by simpa [newBooking] using hb
    omega
  · intro b hb
    rcases List.mem_append.mp hb with hmem | hmem
    · exact Nat.lt_succ_of_lt (h3 b hmem)
    · have : b = newBooking db uid eid seats ev := by simpa using hmem
      rw [this]
      exact Nat.lt_succ_self _
  · intro b hb
    rcases List.mem_append.mp hb with hmem | hmem
    · exact h4 b hmem
    · have : b = newBooking db uid eid seats ev := by simpa using hmem
      rw [this]
      simp [newBooking]

lemma Inv_commitCreate (db : DB) (uid eid seats : Nat) (ev : Event)
    (h : Inv db) : Inv (commitCreate db uid eid seats ev) :=
  Inv_updateEvent _ _ _ (fun e => rfl) (Inv_midCreate db uid eid seats ev h)

lemma Inv_setBookingCancelled (db : DB) (bid : Nat) (h : Inv db) :
    Inv (setBookingCancelled db bid) := by
  obtain ⟨h1, h2, h3, h4⟩ := h
  refine ⟨h1, ?_, ?_, ?_⟩
  · show ((db.bookings.map (cancelIf bid)).map Booking.id).Nodup
    rw [List.map_map]
    have hcomp : (Booking.id ∘ cancelIf bid) = Booking.id :=
      funext (cancelIf_id bid)
    rw [hcomp]
    exact h2
  · intro b hb
    rcases List.mem_map.mp hb with ⟨x, hx, rfl⟩
    rw [cancelIf_id]
    exact h3 x hx
  · intro b hb
    rcases List.mem_map.mp hb with ⟨x, hx, rfl⟩
    unfold cancelIf
    by_cases hid : x.id = bid
    · simp [hid]
    · simp only [if_neg hid]
      exact h4 x hx

lemma Inv_commitCancel (db : DB) (b : Booking) (h : Inv db) :
    Inv (commitCancel db b) :=
  Inv_updateEvent _ _ _ (fun e => rfl) (Inv_setBookingCancelled db b.id h)

/-! ## Step-level preservation lemmas -/

lemma Inv_applyOp (db : DB) (op : Op) (h : Inv db) : Inv (applyOp db op) := by
  cases op with
  | create now uid eid seats =>
    show Inv (createBookingRun db now uid eid seats Fault.noFault).db
    rcases createBookingRun_spec db now uid eid seats Fault.noFault with
      ⟨_, hdb⟩ | ⟨_, ev, _, _, _, _, _, hdb⟩
    · rw [hdb]; exact h
    · rw [hdb]; exact Inv_commitCreate db uid eid seats ev h
  | cancel now uid bid =>
    show Inv (cancelBookingRun db now uid bid Fault.noFault).db
    rcases cancelBookingRun_spec db now uid bid Fault.noFault with
      ⟨_, hdb⟩ | ⟨_, b, ev, _, _, _, _, _, hdb⟩
    · rw [hdb]; exact h
    · rw [hdb]; exact Inv_commitCancel db b h

lemma Inv_applyOps (db : DB) (ops : List Op) (h : Inv db) :
    Inv (applyOps db ops) := by
  induction ops generalizing db with
  | nil => exact h
  | cons op ops ih => exact ih (applyOp db op) (Inv_applyOp db op h)

/-- One step preserves the seat-conservation equation of any event. -/
lemma conserve_applyOp (db : DB) (op : Op) (eid : Nat) (C : Nat)
    (hInv : Inv db) (hC : availSeats db eid + confirmedSeats db eid = C) :
    availSeats (applyOp db op) eid + confirmedSeats (applyOp db op) eid = C := by
  cases op with
  | create now uid eid' seats =>
    show availSeats (createBookingRun db now uid eid' seats Fault.noFault).db eid +
        confirmedSeats (createBookingRun db now uid eid' seats Fault.noFault).db eid = C
    rcases createBookingRun_spec db now uid eid' seats Fault.noFault with
      ⟨_, hdb⟩ | ⟨_, ev, hev, _, _, hcap, _, hdb⟩
    · rw [hdb]; exact hC
    · rw [hdb]
      by_cases heq : eid = eid'
      · subst heq
        rw [availSeats_commitCreate_self db uid eid seats ev hev,
            confirmedSeats_commitCreate db uid eid seats ev eid]
        have hA : availSeats db eid = ev.availableSeats := by
          unfold availSeats
          rw [hev]
        rw [if_pos rfl]
        omega
      · rw [availSeats_commitCreate_ne db uid eid' seats ev eid heq,
            confirmedSeats_commitCreate db uid eid' seats ev eid, if_neg heq]
        simpa using hC
  | cancel now uid bid =>
    show availSeats (cancelBookingRun db now uid bid Fault.noFault).db eid +
        confirmedSeats (cancelBookingRun db now uid bid Fault.noFault).db eid = C
    rcases cancelBookingRun_spec db now uid bid Fault.noFault with
      ⟨_, hdb⟩ | ⟨_, b, ev, hb, hst, hev, _, _, hdb⟩
    · rw [hdb]; exact hC
    · rw [hdb]
      obtain ⟨hmem, _, _⟩ := findOwnedBooking_spec db bid uid b hb
      have hconf : b.status = BookingStatus.confirmed := by
        cases hbs : b.status with
        | confirmed => rfl
        | cancelled => exact absurd hbs hst
        | pending => exact absurd hbs (hInv.2.2.2 b hmem)
      by_cases heq : b.event = eid
      · rw [← heq] at hC ⊢
        rw [availSeats_commitCancel_self db b ev hev]
        have hsum := confirmedSeats_commitCancel_self db b hInv.2.1 hmem hconf
        have hA : availSeats db b.event = ev.availableSeats := by
          unfold availSeats
          rw [hev]
        omega
      · rw [availSeats_commitCancel_ne db b eid (fun hEq => heq hEq.symm),
            confirmedSeats_commitCancel_ne db b eid hInv.2.1 hmem heq]
        exact hC

lemma conserve_applyOps (db : DB) (ops : List Op) (eid : Nat) (C : Nat)
    (hInv : Inv db) (hC : availSeats db eid + confirmedSeats db eid = C) :
    availSeats (applyOps db ops) eid + confirmedSeats (applyOps db ops) eid = C := by
  induction ops generalizing db with
  | nil => exact hC
  | cons op ops ih =>
    exact ih (applyOp db op) (Inv_applyOp db op hInv)
      (conserve_applyOp db op eid C hInv hC)

/-- One step preserves the at-most-one-confirmed-booking invariant. -/
lemma atMostOne_applyOp (db : DB) (op : Op) (h : AtMostOne db) :
    AtMostOne (applyOp db op) := by
  cases op with
  | create now uid eid seats =>
    show AtMostOne (createBookingRun db now uid eid seats Fault.noFault).db
    rcases createBookingRun_spec db now uid eid seats Fault.noFault with
      ⟨_, hdb⟩ | ⟨_, ev, _, _, hdup, _, _, hdb⟩
    · rw [hdb]; exact h
    · rw [hdb]
      intro uid' eid'
      rw [countConfirmed_commitCreate]
      by_cases hcase : uid' = uid ∧ eid' = eid
      · rw [if_pos hcase]
        obtain ⟨rfl, rfl⟩ := hcase
        have h0 : countConfirmed db uid' eid' = 0 := by
          unfold countConfirmed
          rw [List.length_eq_zero, List.filter_eq_nil_iff]
          intro b hb
          have := findConfirmed_none db uid' eid' hdup b hb
          simp [this]
        omega
      · rw [if_neg hcase]
        simpa using h uid' eid'
  | cancel now uid bid =>
    show AtMostOne (cancelBookingRun db now uid bid Fault.noFault).db
    rcases cancelBookingRun_spec db now uid bid Fault.noFault with
      ⟨_, hdb⟩ | ⟨_, b, ev, _, _, _, _, _, hdb⟩
    · rw [hdb]; exact h
    · rw [hdb]
      intro uid' eid'
      have h1 : countConfirmed (commitCancel db b) uid' eid' =
          countConfirmed (setBookingCancelled db b.id) uid' eid' := by
        unfold commitCancel
        rw [countConfirmed_updateEvent]
      rw [h1]
      exact le_trans (countConfirmed_setBookingCancelled_le db b.id uid' eid')
        (h uid' eid')

lemma atMostOne_applyOps (db : DB) (ops : List Op) (h : AtMostOne db) :
    AtMostOne (applyOps db ops) := by
  induction ops generalizing db with
  | nil => exact h
  | cons op ops ih => exact ih (applyOp db op) (atMostOne_applyOp db op h)

/-! ## Concurrency-model lemmas -/

lemma sum_map_set {α : Type} (l : List α) (i : Nat) (x old : α) (f : α → Nat)
    (h : l[i]? = some old) :
    ((l.set i x).map f).sum + f old = (l.map f).sum + f x := by
  induction l generalizing i with
  | nil => simp at h
  | cons y ys ih =>
    cases i with
    | zero =>
      simp only [List.getElem?_cons_zero, Option.some_inj] at h
      subst h
      simp only [List.set_cons_zero, List.map_cons, List.sum_cons]
      omega
    | succ n =>
      simp only [List.getElem?_cons_succ] at h
      simp only [List.set_cons_succ, List.map_cons, List.sum_cons]
      have := ih n h
      omega

lemma concInv_init (C : Nat) (seatsList : List Nat) :
    ConcInv C (initConc C seatsList) := by
  unfold ConcInv
  constructor
  · show C + successSeats (initConc C seatsList) = C
    have h0 : successSeats (initConc C seatsList) = 0 := by
      unfold successSeats initConc
      induction seatsList with
      | nil => rfl
      | cons x xs ih => simpa [callSeats] using ih
    simp [h0]
  · intro i seats sa sv hget
    unfold initConc at hget
    rw [List.getElem?_map] at hget
    cases hx : seatsList[i]? with
    | none => rw [hx] at hget; simp at hget
    | some v => rw [hx] at hget; simp at hget

lemma concInv_step (C : Nat) (s : ConcState) (e : ConcEv)
    (h : ConcInv C s) : ConcInv C (concStep s e) := by
  obtain ⟨hsum, hact⟩ := h
  cases e with
  | start i =>
    unfold concStep
    dsimp only
    cases hc : s.calls[i]? with
    | none => exact ⟨hsum, hact⟩
    | some v =>
      obtain ⟨seats, phase⟩ := v
      cases phase with
      | active sa sv => exact ⟨hsum, hact⟩
      | done b => exact ⟨hsum, hact⟩
      | idle =>
        dsimp only
        obtain ⟨hlt, -⟩ := List.getElem?_eq_some_iff.mp hc
        by_cases hav : s.avail < seats
        · rw [if_pos hav]
          refine ⟨?_, ?_⟩
          · show s.avail +
              ((s.calls.set i (seats, CallPhase.done false)).map callSeats).sum = C
            have hset := sum_map_set s.calls i (seats, CallPhase.done false)
              (seats, CallPhase.idle) callSeats hc
            unfold successSeats at hsum
            simp only [callSeats] at hset
            omega
          · intro j s' sa sv hj
            by_cases hij : i = j
            · subst hij
              rw [List.getElem?_set_self hlt] at hj
              simp at hj
            · rw [List.getElem?_set_ne hij] at hj
              exact hact j s' sa sv hj
        · rw [if_neg hav]
          refine ⟨?_, ?_⟩
          · show s.avail +
              ((s.calls.set i (seats, CallPhase.active s.avail s.version)).map callSeats).sum = C
            have hset := sum_map_set s.calls i
              (seats, CallPhase.active s.avail s.version)
              (seats, CallPhase.idle) callSeats hc
            unfold successSeats at hsum
            simp only [callSeats] at hset
            omega
          · intro j s' sa sv hj
            by_cases hij : i = j
            · subst hij
              rw [List.getElem?_set_self hlt] at hj
              simp only [Option.some_inj, Prod.mk.injEq, CallPhase.active.injEq] at hj
              obtain ⟨rfl, rfl, rfl⟩ := hj
              exact ⟨Nat.le_of_not_lt hav, Nat.le_refl _, fun _ => rfl⟩
            · rw [List.getElem?_set_ne hij] at hj
              exact hact j s' sa sv hj
  | commit i =>
    unfold concStep
    dsimp only
    cases hc : s.calls[i]? with
    | none => exact ⟨hsum, hact⟩
    | some v =>
      obtain ⟨seats, phase⟩ := v
      cases phase with
      | idle => exact ⟨hsum, hact⟩
      | done b => exact ⟨hsum, hact⟩
      | active sa sv =>
        dsimp only
        obtain ⟨hguard, hvb, hfresh⟩ := hact i seats sa sv hc
        obtain ⟨hlt, -⟩ := List.getElem?_eq_some_iff.mp hc
        by_cases hv : sv = s.version
        · rw [if_pos hv]
          have hsa : sa = s.avail := hfresh hv
          refine ⟨?_, ?_⟩
          · show (sa - seats) +
              ((s.calls.set i (seats, CallPhase.done true)).map callSeats).sum = C
            have hset := sum_map_set s.calls i (seats, CallPhase.done true)
              (seats, CallPhase.active sa sv) callSeats hc
            unfold successSeats at hsum
            simp only [callSeats] at hset
            omega
          · intro j s' sa' sv' hj
            by_cases hij : i = j
            · subst hij
              rw [List.getElem?_set_self hlt] at hj
              simp at hj
            · rw [List.getElem?_set_ne hij] at hj
              obtain ⟨hg, hv2, -⟩ := hact j s' sa' sv' hj
              refine ⟨hg, Nat.le_succ_of_le hv2, ?_⟩
              intro hEq
              exact absurd hEq (Nat.ne_of_lt (Nat.lt_succ_of_le hv2))
        · rw [if_neg hv]
          refine ⟨?_, ?_⟩
          · show s.avail +
              ((s.calls.set i (seats, CallPhase.done false)).map callSeats).sum = C
            have hset := sum_map_set s.calls i (seats, CallPhase.done false)
              (seats, CallPhase.active sa sv) callSeats hc
            unfold successSeats at hsum
            simp only [callSeats] at hset
            omega
          · intro j s' sa' sv' hj
            by_cases hij : i = j
            · subst hij
              rw [List.getElem?_set_self hlt] at hj
              simp at hj
            · rw [List.getElem?_set_ne hij] at hj
              exact hact j s' sa' sv' hj

lemma concInv_run (C : Nat) (s : ConcState) (es : List ConcEv)
    (h : ConcInv C s) : ConcInv C (concRun s es) := by
  induction es generalizing s with
  | nil => exact h
  | cons e es ih => exact ih (concStep s e) (concInv_step C s e h)

/-- After a committed cancellation, the same lookup finds the booking in its
cancelled state. -/
lemma findOwnedBooking_commitCancel (db : DB) (b : Booking) (bid uid : Nat)
    (hb : findOwnedBooking db bid uid = some b) :
    findOwnedBooking (commitCancel db b) bid uid =
      some { b with status := BookingStatus.cancelled } := by
  unfold commitCancel
  show (db.bookings.map (cancelIf b.id)).find? (isOwned bid uid) = _
  rw [find?_map_pres db.bookings (cancelIf b.id) (isOwned bid uid)
    (fun x => by unfold isOwned; rw [cancelIf_id, cancelIf_user])]
  unfold findOwnedBooking at hb
  rw [hb]
  simp [cancelIf]

/-! ## The claims -/

/-- C1.  No overselling: for every family of concurrent CreateBooking calls
against one event of capacity `C` (each call one session transaction:
snapshot read, in-transaction capacity check, commit with write-conflict
abort), under every interleaving of transaction starts and commits the sum
of the seats requested by the calls that return success never exceeds `C`. -/
theorem noOverselling_C1 (C : Nat) (seatsList : List Nat) (es : List ConcEv) :
    successSeats (concRun (initConc C seatsList) es) ≤ C := by
  have h := (concInv_run C (initConc C seatsList) es (concInv_init C seatsList)).1
  omega

/-- C2.  Conservation: starting from a well-formed state whose event `eid`
has `availableSeats = totalSeats = C` and no bookings, after any finite
sequence of CreateBooking and CancelBooking operations,
`availableSeats + Σ seatsBooked` over the event's confirmed bookings
equals `C`. -/
theorem conservation_C2 (db0 : DB) (eid C : Nat) (ev0 : Event) (ops : List Op)
    (hInv : Inv db0) (hev : findEvent db0 eid = some ev0)
    (hcap : ev0.availableSeats = C) (htot : ev0.totalSeats = C)
    (hnob : ∀ b ∈ db0.bookings, b.event ≠ eid) :
    availSeats (applyOps db0 ops) eid + confirmedSeats (applyOps db0 ops) eid = C := by
  apply conserve_applyOps db0 ops eid C hInv
  have h1 : availSeats db0 eid = C := by
    unfold availSeats
    rw [hev]
    exact hcap
  have h2 : confirmedSeats db0 eid = 0 := by
    unfold confirmedSeats
    have hnil : db0.bookings.filter (isConfFor eid) = [] := by
      rw [List.filter_eq_nil_iff]
      intro b hb
      have hne := hnob b hb
      unfold isConfFor
      simp [hne]
    rw [hnil]
    rfl
  omega

/-- Witness for C2 at the spec's end-to-end scenario: create 3 seats on a
10-seat event, then cancel the booking. -/
theorem conservation_C2_witness :
    availSeats (applyOps dbA [Op.create 0 7 1 3, Op.cancel 0 7 0]) 1 +
      confirmedSeats (applyOps dbA [Op.create 0 7 1 3, Op.cancel 0 7 0]) 1 = 10 :=
  conservation_C2 dbA 1 10 evA [Op.create 0 7 1 3, Op.cancel 0 7 0]
    (by unfold Inv; refine ⟨?_, ?_, ?_, ?_⟩ <;> simp [dbA, evA])
    rfl rfl rfl (by simp [dbA])

/-- C3.  Atomicity under failure: every CreateBooking or CancelBooking call
that returns an error — a validation failure, or a persistence fault
injected at any point of the session transaction, including between the two
writes — leaves the Event and Booking stores exactly as they were, and every
injected fault does produce an error outcome. -/
theorem atomicity_C3 (db : DB) (now : Int) (uid eid seats bid : Nat)
    (fault : Fault) :
    (∀ e, (createBookingRun db now uid eid seats fault).outcome = Except.error e →
        (createBookingRun db now uid eid seats fault).db = db) ∧
    (∀ e, (cancelBookingRun db now uid bid fault).outcome = Except.error e →
        (cancelBookingRun db now uid bid fault).db = db) ∧
    (fault ≠ Fault.noFault →
      (∃ e, (createBookingRun db now uid eid seats fault).outcome = Except.error e) ∧
      (∃ e, (cancelBookingRun db now uid bid fault).outcome = Except.error e)) := by
  refine ⟨?_, ?_, ?_⟩
  · intro e he
    rcases createBookingRun_spec db now uid eid seats fault with
      ⟨_, hdb⟩ | ⟨_, ev, _, _, _, _, hout, _⟩
    · exact hdb
    · rw [hout] at he
      exact absurd he (by simp)
  · intro e he
    rcases cancelBookingRun_spec db now uid bid fault with
      ⟨_, hdb⟩ | ⟨_, b, ev, _, _, _, _, hout, _⟩
    · exact hdb
    · rw [hout] at he
      exact absurd he (by simp)
  · intro hf
    constructor
    · rcases createBookingRun_spec db now uid eid seats fault with
        ⟨he, _⟩ | ⟨hnf, _⟩
      · exact he
      · exact absurd hnf hf
    · rcases cancelBookingRun_spec db now uid bid fault with
        ⟨he, _⟩ | ⟨hnf, _⟩
      · exact he
      · exact absurd hnf hf

/-- Witness for C3: a fault injected between the booking insert and the seat
decrement on an otherwise-valid create aborts with `internal` and leaves the
database untouched; same for a cancel call. -/
theorem atomicity_C3_witness :
    (createBookingRun dbA 0 7 1 3 Fault.betweenSaves).db = dbA ∧
    (createBookingRun dbA 0 7 1 3 Fault.betweenSaves).outcome =
      Except.error CreateErr.internal ∧
    (cancelBookingRun dbA 0 7 0 Fault.betweenSaves).db = dbA := by
  have h := atomicity_C3 dbA 0 7 1 3 0 Fault.betweenSaves
  exact ⟨h.1 CreateErr.internal rfl, rfl, h.2.1 CancelErr.bookingNotFound rfl⟩

/-- C4.  CreateBooking success effect: a successful create yields a booking
with status `confirmed` and `totalAmount = event.price * seatsRequested`
(the event's price at that moment), and decreases the event's
`availableSeats` by exactly `seatsRequested`. -/
theorem createSuccess_C4 (db : DB) (now : Int) (uid eid seats : Nat)
    (ev : Event) (b : Booking) (hev : findEvent db eid = some ev)
    (hok : (createBooking db now uid eid seats).outcome = Except.ok b) :
    b.status = BookingStatus.confirmed ∧
    b.totalAmount = ev.price * seats ∧
    seats ≤ ev.availableSeats ∧
    availSeats db eid = ev.availableSeats ∧
    availSeats (createBooking db now uid eid seats).db eid + seats =
      ev.availableSeats := by
  unfold createBooking at hok ⊢
  rcases createBookingRun_spec db now uid eid seats Fault.noFault with
    ⟨⟨e, hout⟩, _⟩ | ⟨_, ev2, hev2, _, _, hcap, hout, hdb⟩
  · rw [hout] at hok
    exact absurd hok (by simp)
  · have hevs : ev2 = ev := by
      rw [hev] at hev2
      exact (Option.some_inj.mp hev2).symm
    rw [hevs] at hout hdb hcap
    rw [hout] at hok
    have hb : newBooking db uid eid seats ev = b := by
      injection hok
    subst hb
    refine ⟨rfl, rfl, hcap, ?_, ?_⟩
    · unfold availSeats
      rw [hev]
    · rw [hdb, availSeats_commitCreate_self db uid eid seats ev hev]
      omega

/-- Witness for C4 at the spec scenario: 3 seats on a 10-seat event priced
5000 yield a confirmed booking with totalAmount 15000 and 7 seats left. -/
theorem createSuccess_C4_witness :
    (newBooking dbA 7 1 3 evA).status = BookingStatus.confirmed ∧
    (newBooking dbA 7 1 3 evA).totalAmount = 15000 ∧
    3 ≤ evA.availableSeats ∧
    availSeats dbA 1 = 10 ∧
    availSeats (createBooking dbA 0 7 1 3).db 1 + 3 = 10 :=
  createSuccess_C4 dbA 0 7 1 3 evA (newBooking dbA 7 1 3 evA) rfl rfl

/-- C5 (counterexample).  The claim says CreateBooking fails with Conflict
(duplicate booking) whenever a confirmed booking for (userId, eventId)
exists; but the past-event check runs first: in state `dbP` user 7 holds a
confirmed booking on event 3 whose date (instant 0) has passed at instant 1,
and `createBooking` returns the past-event error, not the duplicate
error. -/
theorem atMostOne_C5_counterexample :
    (findConfirmed dbP 7 3).isSome = true ∧
    (createBooking dbP 1 7 3 1).outcome = Except.error CreateErr.pastEvent ∧
    (createBooking dbP 1 7 3 1).outcome ≠
      Except.error CreateErr.duplicateBooking := by
  refine ⟨rfl, rfl, ?_⟩
  intro h
  have h3 : (createBooking dbP 1 7 3 1).outcome =
      Except.error CreateErr.pastEvent := rfl
  rw [h3] at h
  exact absurd (Except.error.inj h) (by decide)

/-- C5 (amended).  At every state reachable by create/cancel operations from
a state with at most one confirmed booking per pair, at most one confirmed
booking exists per (user, event) pair; and whenever the event exists, its
date has not passed, and a confirmed booking for (userId, eventId) already
exists, CreateBooking fails with the duplicate-booking Conflict and changes
nothing. -/
theorem atMostOne_C5 (db0 : DB) (ops : List Op) (h0 : AtMostOne db0)
    (db : DB) (now : Int) (uid eid seats : Nat) (ev : Event)
    (hev : findEvent db eid = some ev) (hdate : ¬(ev.date < now))
    (hdup : (findConfirmed db uid eid).isSome = true) :
    AtMostOne (applyOps db0 ops) ∧
    (createBooking db now uid eid seats).outcome =
      Except.error CreateErr.duplicateBooking ∧
    (createBooking db now uid eid seats).db = db := by
  refine ⟨atMostOne_applyOps db0 ops h0, ?_, ?_⟩ <;>
    rw [createBooking_duplicate_eval db now uid eid seats ev hev hdate hdup]

/-- Witness for C5: after user 7 books event 1, a second create by the same
user is rejected as a duplicate and the state is unchanged. -/
theorem atMostOne_C5_witness :
    AtMostOne (applyOps dbA [Op.create 0 7 1 3]) ∧
    (createBooking (applyOps dbA [Op.create 0 7 1 3]) 0 7 1 2).outcome =
      Except.error CreateErr.duplicateBooking ∧
    (createBooking (applyOps dbA [Op.create 0 7 1 3]) 0 7 1 2).db =
      applyOps dbA [Op.create 0 7 1 3] :=
  atMostOne_C5 dbA [Op.create 0 7 1 3]
    (by intro uid eid; simp [countConfirmed, dbA])
    (applyOps dbA [Op.create 0 7 1 3]) 0 7 1 2
    { id := 1, date := 864000000, price := 5000, totalSeats := 10,
      availableSeats := 7 }
    rfl (by decide) rfl

/-- C6.  InsufficientCapacity: when the event exists, is not past, no
duplicate confirmed booking exists, and `availableSeats < seatsRequested`,
the call fails reporting the actual remaining count and `availableSeats` is
unchanged. -/
theorem insufficientCapacity_C6 (db : DB) (now : Int) (uid eid seats : Nat)
    (ev : Event) (hev : findEvent db eid = some ev) (hdate : ¬(ev.date < now))
    (hdup : findConfirmed db uid eid = none)
    (hcap : ev.availableSeats < seats) :
    (createBooking db now uid eid seats).outcome =
      Except.error (CreateErr.insufficientSeats ev.availableSeats) ∧
    (createBooking db now uid eid seats).db = db ∧
    availSeats (createBooking db now uid eid seats).db eid = ev.availableSeats := by
  rw [createBooking_insufficient_eval db now uid eid seats ev hev hdate hdup hcap]
  refine ⟨rfl, rfl, ?_⟩
  unfold availSeats
  rw [hev]

/-- Witness for C6 at the spec scenario: with 2 seats left, a request for 5
reports remaining = 2 and leaves `availableSeats` at 2. -/
theorem insufficientCapacity_C6_witness :
    (createBooking dbB 0 9 2 5).outcome =
      Except.error (CreateErr.insufficientSeats 2) ∧
    (createBooking dbB 0 9 2 5).db = dbB ∧
    availSeats (createBooking dbB 0 9 2 5).db 2 = 2 :=
  insufficientCapacity_C6 dbB 0 9 2 5 evB rfl (by decide) rfl (by decide)

/-- C7.  Cancellation is terminal and exact: at any state reachable from a
well-formed one, CancelBooking succeeds only on a booking whose status is
`confirmed`; cancelling an already-cancelled booking fails with the
already-cancelled InvalidState error and changes nothing; a successful
cancellation returns the booking with status `cancelled` and increases the
event's `availableSeats` by exactly the stored `seatsBooked`; and a second
cancel of the same booking fails with the InvalidState error and changes
nothing. -/
theorem cancelTerminal_C7 (db0 : DB) (ops : List Op) (h0 : Inv db0)
    (db : DB) (hreach : db = applyOps db0 ops)
    (now : Int) (uid bid : Nat) (b : Booking)
    (hb : findOwnedBooking db bid uid = some b) :
    (∀ b2, (cancelBooking db now uid bid).outcome = Except.ok b2 →
        b.status = BookingStatus.confirmed) ∧
    (b.status = BookingStatus.cancelled →
      (cancelBooking db now uid bid).outcome =
        Except.error CancelErr.alreadyCancelled ∧
      (cancelBooking db now uid bid).db = db) ∧
    (∀ b2 ev, findEvent db b.event = some ev →
      (cancelBooking db now uid bid).outcome = Except.ok b2 →
      b2 = { b with status := BookingStatus.cancelled } ∧
      availSeats (cancelBooking db now uid bid).db b.event =
        availSeats db b.event + b.seatsBooked ∧
      (cancelBooking (cancelBooking db now uid bid).db now uid bid).outcome =
        Except.error CancelErr.alreadyCancelled ∧
      (cancelBooking (cancelBooking db now uid bid).db now uid bid).db =
        (cancelBooking db now uid bid).db) := by
  have hInv : Inv db := hreach ▸ Inv_applyOps db0 ops h0
  obtain ⟨hmem, hbid, huid⟩ := findOwnedBooking_spec db bid uid b hb
  refine ⟨?_, ?_, ?_⟩
  · intro b2 hok
    rcases cancelBookingRun_spec db now uid bid Fault.noFault with
      ⟨⟨e, hout⟩, _⟩ | ⟨_, b3, ev3, hb3, hst, _, _, hout, _⟩
    · have hout' : (cancelBooking db now uid bid).outcome = Except.error e := hout
      rw [hout'] at hok
      exact absurd hok (by simp)
    · have hb3b : b = b3 := by
        rw [hb] at hb3
        exact Option.some_inj.mp hb3
      subst hb3b
      cases hstatus : b.status with
      | confirmed => rfl
      | cancelled => exact absurd hstatus hst
      | pending => exact absurd hstatus (hInv.2.2.2 b hmem)
  · intro hcanc
    rw [cancelBooking_alreadyCancelled_eval db now uid bid b hb hcanc]
    exact ⟨rfl, rfl⟩
  · intro b2 ev hev hok
    rcases cancelBookingRun_spec db now uid bid Fault.noFault with
      ⟨⟨e, hout⟩, _⟩ | ⟨_, b3, ev3, hb3, hst, hev3, hcut, hout, hdb⟩
    · have hout' : (cancelBooking db now uid bid).outcome = Except.error e := hout
      rw [hout'] at hok
      exact absurd hok (by simp)
    · have hb3b : b = b3 := by
        rw [hb] at hb3
        exact Option.some_inj.mp hb3
      subst hb3b
      have hevs : ev = ev3 := by
        rw [hev] at hev3
        exact Option.some_inj.mp hev3
      subst hevs
      have hout' : (cancelBooking db now uid bid).outcome =
          Except.ok { b with status := BookingStatus.cancelled } := hout
      have hdb' : (cancelBooking db now uid bid).db = commitCancel db b := hdb
      rw [hout'] at hok
      have hb2 : { b with status := BookingStatus.cancelled } = b2 := by
        injection hok
      refine ⟨hb2.symm, ?_, ?_, ?_⟩
      · rw [hdb', availSeats_commitCancel_self db b ev hev]
        have hA : availSeats db b.event = ev.availableSeats := by
          unfold availSeats
          rw [hev]
        rw [hA]
      · rw [hdb', cancelBooking_alreadyCancelled_eval (commitCancel db b) now uid
          bid { b with status := BookingStatus.cancelled }
          (findOwnedBooking_commitCancel db b bid uid hb) rfl]
      · rw [hdb', cancelBooking_alreadyCancelled_eval (commitCancel db b) now uid
          bid { b with status := BookingStatus.cancelled }
          (findOwnedBooking_commitCancel db b bid uid hb) rfl]

/-- Witness for C7: user 7 books 3 seats on event 1 and cancels; seats go
from 7 back to 10, and a second cancel fails with the already-cancelled
error leaving the state unchanged. -/
theorem cancelTerminal_C7_witness :
    availSeats (cancelBooking (applyOps dbA [Op.create 0 7 1 3]) 0 7 0).db 1 =
      availSeats (applyOps dbA [Op.create 0 7 1 3]) 1 + 3 ∧
    (cancelBooking (cancelBooking (applyOps dbA [Op.create 0 7 1 3]) 0 7 0).db
        0 7 0).outcome = Except.error CancelErr.alreadyCancelled ∧
    (cancelBooking (cancelBooking (applyOps dbA [Op.create 0 7 1 3]) 0 7 0).db
        0 7 0).db = (cancelBooking (applyOps dbA [Op.create 0 7 1 3]) 0 7 0).db := by
  have h := cancelTerminal_C7 dbA [Op.create 0 7 1 3]
    (by unfold Inv; refine ⟨?_, ?_, ?_, ?_⟩ <;> simp [dbA, evA])
    (applyOps dbA [Op.create 0 7 1 3]) rfl 0 7 0
    { id := 0, user := 7, event := 1, seatsBooked := 3, totalAmount := 15000,
      status := BookingStatus.confirmed } rfl
  have hc := h.2.2
    { id := 0, user := 7, event := 1, seatsBooked := 3, totalAmount := 15000,
      status := BookingStatus.cancelled }
    { id := 1, date := 864000000, price := 5000, totalSeats := 10,
      availableSeats := 7 }
    rfl rfl
  exact ⟨hc.2.1, hc.2.2.1, hc.2.2.2⟩

/-- C8.  24-hour cutoff: on an existing booking owned by the caller whose
event exists, a cancel attempt less than 24 hours before the event's start
fails with an InvalidState error and changes nothing; with at least 24 hours
of lead time (and the booking not already cancelled) the cancellation
succeeds. -/
theorem cutoff_C8 (db : DB) (now : Int) (uid bid : Nat) (b : Booking)
    (ev : Event) (hb : findOwnedBooking db bid uid = some b)
    (hev : findEvent db b.event = some ev) :
    (ev.date - now < cutoffMs →
      ∃ e, (cancelBooking db now uid bid).outcome = Except.error e ∧
        cancelErrIsInvalidState e = true ∧
        (cancelBooking db now uid bid).db = db) ∧
    (¬(ev.date - now < cutoffMs) → b.status ≠ BookingStatus.cancelled →
      (cancelBooking db now uid bid).outcome =
        Except.ok { b with status := BookingStatus.cancelled }) := by
  constructor
  · intro hcut
    by_cases hst : b.status = BookingStatus.cancelled
    · rw [cancelBooking_alreadyCancelled_eval db now uid bid b hb hst]
      exact ⟨CancelErr.alreadyCancelled, rfl, rfl, rfl⟩
    · rw [cancelBooking_tooClose_eval db now uid bid b ev hb hst hev hcut]
      exact ⟨CancelErr.tooCloseToEvent, rfl, rfl, rfl⟩
  · intro hcut hst
    rw [cancelBooking_success_eval db now uid bid b ev hb hst hev hcut]

/-- Witness for C8: cancelling 10 hours before the event start fails with an
InvalidState error and no change; cancelling with 10 days of lead time
succeeds. -/
theorem cutoff_C8_witness :
    (∃ e, (cancelBooking (applyOps dbA [Op.create 0 7 1 3]) 828000000 7 0).outcome =
        Except.error e ∧ cancelErrIsInvalidState e = true ∧
        (cancelBooking (applyOps dbA [Op.create 0 7 1 3]) 828000000 7 0).db =
          applyOps dbA [Op.create 0 7 1 3]) ∧
    (cancelBooking (applyOps dbA [Op.create 0 7 1 3]) 0 7 0).outcome =
      Except.ok { id := 0, user := 7, event := 1, seatsBooked := 3,
                  totalAmount := 15000, status := BookingStatus.cancelled } := by
  constructor
  · exact (cutoff_C8 (applyOps dbA [Op.create 0 7 1 3]) 828000000 7 0
      { id := 0, user := 7, event := 1, seatsBooked := 3, totalAmount := 15000,
        status := BookingStatus.confirmed }
      { id := 1, date := 864000000, price := 5000, totalSeats := 10,
        availableSeats := 7 } rfl rfl).1 (by decide)
  · exact (cutoff_C8 (applyOps dbA [Op.create 0 7 1 3]) 0 7 0
      { id := 0, user := 7, event := 1, seatsBooked := 3, totalAmount := 15000,
        status := BookingStatus.confirmed }
      { id := 1, date := 864000000, price := 5000, totalSeats := 10,
        availableSeats := 7 } rfl rfl).2 (by decide) (by decide)

/-- C9.  Request bounds: a booking-create request with `seatsRequested < 1`
or `seatsRequested > 10` is rejected as InvalidRequest (the Joi
`bookingSchema` bounds) with no state change.  The check depends only on
the request, so rejecting it in the validation middleware is observationally
the same as rejecting it inside the unit of work. -/
theorem requestBounds_C9 (db : DB) (now : Int) (uid eid : Nat) (seats : Int)
    (h : seats < 1 ∨ 10 < seats) :
    (handleCreateBooking db now uid eid seats).outcome =
      Except.error ApiCreateErr.invalidRequest ∧
    (handleCreateBooking db now uid eid seats).db = db := by
  have hval : bookingSchemaSeatsOk seats = false := by
    unfold bookingSchemaSeatsOk
    rcases h with h | h <;> simp <;> omega
  unfold handleCreateBooking
  rw [hval]
  exact ⟨rfl, rfl⟩

/-- Witness for C9: a request for 11 seats is rejected with no state
change. -/
theorem requestBounds_C9_witness :
    (handleCreateBooking dbA 0 7 1 11).outcome =
      Except.error ApiCreateErr.invalidRequest ∧
    (handleCreateBooking dbA 0 7 1 11).db = dbA :=
  requestBounds_C9 dbA 0 7 1 11 (Or.inr (by decide))

/-- C10.  Pagination clamping: both list endpoints clamp the page size to
1..50 and the page number to at least 1, return at most the clamped limit
(hence at most 50) bookings, skip `(page' - 1) * limit'` records, and report
pagination metadata `page'`, `limit'`, the total match count, and
`ceil(total / limit')` pages. -/
theorem pagination_C10 (db : DB) (uid : Nat) (stf : Option BookingStatus)
    (evf usf : Option Nat) (page limit : Int) :
    ((getUserBookings db uid stf page limit).pagination.page = max 1 page ∧
     (getUserBookings db uid stf page limit).pagination.limit =
       max 1 (min 50 limit) ∧
     1 ≤ (getUserBookings db uid stf page limit).pagination.limit ∧
     (getUserBookings db uid stf page limit).pagination.limit ≤ 50 ∧
     (getUserBookings db uid stf page limit).bookings.length ≤ 50 ∧
     (getUserBookings db uid stf page limit).bookings =
       ((db.bookings.filter (userBookingsFilter uid stf)).drop
           (((max 1 page - 1) * max 1 (min 50 limit)).toNat)).take
         ((max 1 (min 50 limit)).toNat) ∧
     (getUserBookings db uid stf page limit).pagination.total =
       (db.bookings.filter (userBookingsFilter uid stf)).length ∧
     (getUserBookings db uid stf page limit).pagination.pages =
       ((getUserBookings db uid stf page limit).pagination.total +
          (max 1 (min 50 limit)).toNat - 1) / (max 1 (min 50 limit)).toNat) ∧
    ((getAllBookings db stf evf usf page limit).pagination.page = max 1 page ∧
     (getAllBookings db stf evf usf page limit).pagination.limit =
       max 1 (min 50 limit) ∧
     (getAllBookings db stf evf usf page limit).bookings.length ≤ 50 ∧
     (getAllBookings db stf evf usf page limit).bookings =
       ((db.bookings.filter (allBookingsFilter stf evf usf)).drop
           (((max 1 page - 1) * max 1 (min 50 limit)).toNat)).take
         ((max 1 (min 50 limit)).toNat) ∧
     (getAllBookings db stf evf usf page limit).pagination.total =
       (db.bookings.filter (allBookingsFilter stf evf usf)).length ∧
     (getAllBookings db stf evf usf page limit).pagination.pages =
       ((getAllBookings db stf evf usf page limit).pagination.total +
          (max 1 (min 50 limit)).toNat - 1) / (max 1 (min 50 limit)).toNat) := by
  have hle : max 1 (min 50 limit) ≤ (50 : Int) :=
    max_le (by norm_num) (min_le_left _ _)
  have hto : (max 1 (min 50 limit)).toNat ≤ 50 := by omega
  refine ⟨⟨rfl, rfl, le_max_left 1 _, hle, ?_, rfl, rfl, rfl⟩,
          ⟨rfl, rfl, ?_, rfl, rfl, rfl⟩⟩
  · show (((db.bookings.filter (userBookingsFilter uid stf)).drop
        (((max 1 page - 1) * max 1 (min 50 limit)).toNat)).take
          ((max 1 (min 50 limit)).toNat)).length ≤ 50
    rw [List.length_take]
    omega
  · show (((db.bookings.filter (allBookingsFilter stf evf usf)).drop
        (((max 1 page - 1) * max 1 (min 50 limit)).toNat)).take
          ((max 1 (min 50 limit)).toNat)).length ≤ 50
    rw [List.length_take]
    omega

end EventBooking
